import Mathlib

/-!
Shallow embedding of the bus-check headway analysis core
(src/bus_check/analysis/headway_analysis.py, src/bus_check/config.py,
scripts/validate_algorithm.py).

Conventions of the embedding:
* timestamps are rational numbers of seconds (pandas datetimes support exact
  linear arithmetic; a pd.Timedelta of m minutes is 60 * m seconds);
* progress distances and headway values are rational numbers;
* pandas NaN results (sample std of fewer than 2 values) are Option.none;
  float infinity (cv_headway when the mean is 0) is the top element of EReal;
* a pandas DataFrame column dependence is made explicit: functions take the
  fields they read.
-/

namespace BusCheck

/-- One row of the vehicle_positions frame, restricted to the two columns the
arrival detector reads (tmstmp, pdist), for a single vehicle (vid fixed). -/
structure Sample where
  tmstmp : ℚ
  pdist : ℚ
deriving DecidableEq

/-- One row of the arrivals frame produced by detect_stop_arrivals, minus the
vid column (the embedding works per vehicle). -/
structure Arrival where
  arrival_time : ℚ
  pdist_at_arrival : ℚ
deriving DecidableEq

/-- group.sort_values("tmstmp"): stable sort of one vehicle's samples by
timestamp. -/
def sortByTmstmp (l : List Sample) : List Sample :=
  List.insertionSort (fun a b => a.tmstmp ≤ b.tmstmp) l

/-- pandas Series.median(): midpoint of the sorted values (average of the two
middle values for even length; junk value 0 for the empty series, which the
reducer contract excludes). -/
def medianQ (hs : List ℚ) : ℚ :=
  let s := List.insertionSort (· ≤ ·) hs
  if hs.length % 2 = 1 then s.getD (hs.length / 2) 0
  else (s.getD (hs.length / 2 - 1) 0 + s.getD (hs.length / 2) 0) / 2

/-- pandas Series.var(ddof=1): sample variance with n-1 denominator; NaN
(none) when fewer than two values. -/
def sampleVariance (hs : List ℚ) : Option ℚ :=
  if hs.length ≤ 1 then none
  else some ((hs.map fun h => (h - hs.sum / hs.length) ^ 2).sum / (hs.length - 1))

/-- The eleven-field record returned by compute_headway_metrics. -/
structure HeadwayMetrics where
  mean_headway : ℚ
  median_headway : ℚ
  std_headway : Option ℝ
  cv_headway : Option EReal
  pct_under_10 : ℚ
  pct_under_12 : ℚ
  pct_over_15 : ℚ
  pct_over_20 : ℚ
  max_headway : ℚ
  bunching_rate : ℚ
  excess_wait_time : ℚ

/-- compute_headway_metrics (headway_analysis.py lines 8-37): reduce a batch
of headway values (minutes) to the eleven summary statistics.  std_headway is
none exactly where pandas Series.std(ddof=1) is NaN (n <= 1); cv_headway is
some top exactly where the code returns float inf (mean = 0), and none where
std is NaN. -/
noncomputable def compute_headway_metrics (headways : List ℚ) : HeadwayMetrics :=
  let n : ℚ := headways.length
  let mean_h : ℚ := headways.sum / n
  let std_h : Option ℝ := (sampleVariance headways).map fun v => Real.sqrt (v : ℝ)
  let sum_h : ℚ := headways.sum
  let sum_h2 : ℚ := (headways.map fun h => h ^ 2).sum
  let ewt : ℚ := sum_h2 / (2 * sum_h) - mean_h / 2
  { mean_headway := mean_h
    median_headway := medianQ headways
    std_headway := std_h
    cv_headway :=
      if mean_h ≠ 0 then std_h.map fun s => ((s / (mean_h : ℝ) : ℝ) : EReal)
      else some ⊤
    pct_under_10 := (headways.countP fun h => decide (h ≤ 10)) / n * 100
    pct_under_12 := (headways.countP fun h => decide (h ≤ 12)) / n * 100
    pct_over_15 := (headways.countP fun h => decide (15 < h)) / n * 100
    pct_over_20 := (headways.countP fun h => decide (20 < h)) / n * 100
    max_headway := (headways.max?).getD 0
    bunching_rate := (headways.countP fun h => decide (h < 2)) / n * 100
    excess_wait_time := ewt }

/-- The interpolation fraction (reference_pdist - prev.pdist) / denom of
detect_stop_arrivals (headway_analysis.py line 79). -/
def interpFraction (reference_pdist : ℚ) (prev curr : Sample) : ℚ :=
  (reference_pdist - prev.pdist) / (curr.pdist - prev.pdist)

/-- The interpolated arrival time prev.tmstmp + fraction * (curr.tmstmp -
prev.tmstmp) of detect_stop_arrivals (headway_analysis.py lines 80-81). -/
def interpTime (reference_pdist : ℚ) (prev curr : Sample) : ℚ :=
  prev.tmstmp + interpFraction reference_pdist prev curr * (curr.tmstmp - prev.tmstmp)

/-- The inner loop of detect_stop_arrivals (headway_analysis.py lines 68-95)
for one vehicle: scan consecutive pairs of the timestamp-sorted samples,
carrying last_arrival_time; on a crossing (prev.pdist < ref <= curr.pdist)
with nonzero denominator, append the interpolated arrival unless it is less
than min_gap after the last accepted arrival. min_gap is in seconds. -/
def detectPairs (reference_pdist min_gap : ℚ) :
    List Sample → Option ℚ → List Arrival
  | prev :: curr :: rest, last_arrival_time =>
    if prev.pdist < reference_pdist ∧ reference_pdist ≤ curr.pdist then
      if curr.pdist - prev.pdist = 0 then
        detectPairs reference_pdist min_gap (curr :: rest) last_arrival_time
      else
        match last_arrival_time with
        | some last =>
          if interpTime reference_pdist prev curr - last < min_gap then
            detectPairs reference_pdist min_gap (curr :: rest) (some last)
          else
            ⟨interpTime reference_pdist prev curr, reference_pdist⟩ ::
              detectPairs reference_pdist min_gap (curr :: rest)
                (some (interpTime reference_pdist prev curr))
        | none =>
          ⟨interpTime reference_pdist prev curr, reference_pdist⟩ ::
            detectPairs reference_pdist min_gap (curr :: rest)
              (some (interpTime reference_pdist prev curr))
    else
      detectPairs reference_pdist min_gap (curr :: rest) last_arrival_time
  | _, _ => []

/-- detect_stop_arrivals (headway_analysis.py lines 40-100) restricted to the
group of one vehicle: sort the samples by timestamp and scan consecutive
pairs with no previous arrival.  min_gap_minutes is converted to seconds
(pd.Timedelta(minutes=m) = 60 * m seconds). -/
def detect_stop_arrivals (reference_pdist min_gap_minutes : ℚ)
    (vehicle_positions : List Sample) : List Arrival :=
  detectPairs reference_pdist (60 * min_gap_minutes)
    (sortByTmstmp vehicle_positions) none

/-- detectPairs with the zero-denominator skip branch (headway_analysis.py
lines 77-78) removed, to state that the branch is unreachable. -/
def detectPairsNoskip (reference_pdist min_gap : ℚ) :
    List Sample → Option ℚ → List Arrival
  | prev :: curr :: rest, last_arrival_time =>
    if prev.pdist < reference_pdist ∧ reference_pdist ≤ curr.pdist then
      match last_arrival_time with
      | some last =>
        if interpTime reference_pdist prev curr - last < min_gap then
          detectPairsNoskip reference_pdist min_gap (curr :: rest) (some last)
        else
          ⟨interpTime reference_pdist prev curr, reference_pdist⟩ ::
            detectPairsNoskip reference_pdist min_gap (curr :: rest)
              (some (interpTime reference_pdist prev curr))
      | none =>
        ⟨interpTime reference_pdist prev curr, reference_pdist⟩ ::
          detectPairsNoskip reference_pdist min_gap (curr :: rest)
            (some (interpTime reference_pdist prev curr))
    else
      detectPairsNoskip reference_pdist min_gap (curr :: rest) last_arrival_time
  | _, _ => []

/-- The interpolated times of all crossing pairs of a sample list, in scan
order (a specification-side view of the crossings of headway_analysis.py
line 74). -/
def crossInterps (reference_pdist : ℚ) : List Sample → List ℚ
  | prev :: curr :: rest =>
    (if prev.pdist < reference_pdist ∧ reference_pdist ≤ curr.pdist then
      [interpTime reference_pdist prev curr]
    else []) ++ crossInterps reference_pdist (curr :: rest)
  | _ => []

/-- Jitter suppression written from the specification: accept a detection time
when there is no previously accepted detection, or when it is at least
min_gap after the most recently accepted one; a suppressed detection does not
reset the gap reference. -/
def gapFilter (min_gap : ℚ) : Option ℚ → List ℚ → List ℚ
  | _, [] => []
  | none, t :: ts => t :: gapFilter min_gap (some t) ts
  | some last, t :: ts =>
    if t - last < min_gap then gapFilter min_gap (some last) ts
    else t :: gapFilter min_gap (some t) ts

/-- compute_headways_from_arrivals (headway_analysis.py lines 103-120): the
arrivals frame is read only through its arrival_time column (seconds), so the
input is the list of arrival times; sort ascending, take consecutive
differences, convert seconds to minutes. -/
def compute_headways_from_arrivals (arrival_times : List ℚ) : List ℚ :=
  if arrival_times.length ≤ 1 then []
  else
    let s := List.insertionSort (· ≤ ·) arrival_times
    (s.zip s.tail).map fun p => (p.2 - p.1) / 60

/-- SERVICE_WINDOW_WEEKDAY (config.py line 44). -/
def SERVICE_WINDOW_WEEKDAY : ℕ × ℕ := (6, 21)

/-- SERVICE_WINDOW_WEEKEND (config.py line 45). -/
def SERVICE_WINDOW_WEEKEND : ℕ × ℕ := (9, 21)

/-- is_in_service_window (config.py lines 67-69). -/
def is_in_service_window (hour : ℕ) (is_weekday : Bool) : Bool :=
  let w := if is_weekday then SERVICE_WINDOW_WEEKDAY else SERVICE_WINDOW_WEEKEND
  decide (w.1 ≤ hour ∧ hour < w.2)

/-- What filter_arrivals_to_service_window reads from an arrival_time value:
pandas dt.dayofweek (Monday = 0 .. Sunday = 6) and dt.hour. -/
structure LocalTime where
  dayofweek : Fin 7
  hour : ℕ
deriving DecidableEq

/-- filter_arrivals_to_service_window (headway_analysis.py lines 123-138):
keep the rows whose arrival_time satisfies is_in_service_window, where
is_weekday is dayofweek < 5; rows of any shape are kept unchanged.  The row
type is abstract (all original columns are carried in the row value);
arrival_time extracts the column the filter reads. -/
def filter_arrivals_to_service_window {α : Type} (arrival_time : α → LocalTime)
    (arrivals : List α) : List α :=
  arrivals.filter fun r =>
    is_in_service_window (arrival_time r).hour
      (decide ((arrival_time r).dayofweek.val < 5))

/-- The verdict printed by scripts/validate_algorithm.py main (lines 202-208). -/
inductive Verdict where
  | PASS
  | MARGINAL
  | FAIL
deriving DecidableEq

/-- The per-route deltas of validate_algorithm.py lines 169-174: for each
common route, the downsampled pct_under_10 minus the full-resolution
pct_under_10.  A route is a pair (full, downsampled) of pct_under_10 values. -/
def route_deltas (results : List (ℚ × ℚ)) : List ℚ :=
  results.map fun fd => fd.2 - fd.1

/-- mean_delta of validate_algorithm.py line 188: sum(deltas) / len(deltas). -/
def mean_delta (results : List (ℚ × ℚ)) : ℚ :=
  (route_deltas results).sum / (route_deltas results).length

/-- The PASS / MARGINAL / FAIL classification of validate_algorithm.py lines
203-208, driven by abs(mean_delta). -/
def validation_verdict (results : List (ℚ × ℚ)) : Verdict :=
  if |mean_delta results| ≤ 5 then Verdict.PASS
  else if |mean_delta results| ≤ 10 then Verdict.MARGINAL
  else Verdict.FAIL

/-- Modelled from the spec: the headline comparison statistic as the
specification words it, the mean over all compared routes of the absolute
difference between the downsampled and full-resolution pct_under_10 values. -/
def mean_abs_delta (results : List (ℚ × ℚ)) : ℚ :=
  ((route_deltas results).map fun d => |d|).sum / (route_deltas results).length

/-- Modelled from the spec: the per-vehicle scan of Tolerance-window detection
mode.  The detector itself is not under src/ (it belongs to the production
Cloudflare Worker collector; src/ only holds the Crossing+Interpolation
variant), so it is modelled from the specification: track a flag "seen below
lower since the last detection" (initially false); the first sample with the
flag set whose distance falls in [lower, upper] is recorded as one Arrival
Event with that sample's own timestamp and distance, and the flag resets. -/
def toleranceScan (lower upper : ℚ) : Bool → List Sample → List Arrival
  | _, [] => []
  | armed, s :: rest =>
    if armed ∧ lower ≤ s.pdist ∧ s.pdist ≤ upper then
      ⟨s.tmstmp, s.pdist⟩ :: toleranceScan lower upper false rest
    else if s.pdist < lower then
      toleranceScan lower upper true rest
    else
      toleranceScan lower upper armed rest

/-- Modelled from the spec: Tolerance-window detection for one vehicle, with
lower = reference - tolerance and upper = reference + tolerance, scanning the
timestamp-sorted samples with the flag initially false. -/
def detect_arrivals_tolerance (reference tolerance : ℚ)
    (vehicle_positions : List Sample) : List Arrival :=
  toleranceScan (reference - tolerance) (reference + tolerance) false
    (sortByTmstmp vehicle_positions)

/-! Helper lemmas. -/

lemma crossing_denom_pos (reference_pdist : ℚ) (prev curr : Sample)
    (h1 : prev.pdist < reference_pdist) (h2 : reference_pdist ≤ curr.pdist) :
    0 < curr.pdist - prev.pdist := by
  linarith

/-- The per-vehicle scan is gap-filtering of the crossing interpolation times,
tagged with the reference distance. -/
lemma detectPairs_eq_gapFilter (reference_pdist min_gap : ℚ) :
    ∀ (l : List Sample) (last : Option ℚ),
      detectPairs reference_pdist min_gap l last =
        (gapFilter min_gap last (crossInterps reference_pdist l)).map
          fun t => Arrival.mk t reference_pdist := by
  intro l
  induction l with
  | nil => intro last; simp [detectPairs, crossInterps, gapFilter]
  | cons p t ih =>
    cases t with
    | nil => intro last; simp [detectPairs, crossInterps, gapFilter]
    | cons c rest =>
      intro last
      by_cases hcross : p.pdist < reference_pdist ∧ reference_pdist ≤ c.pdist
      · have hden : ¬(c.pdist - p.pdist = 0) := by
          rcases hcross with ⟨h1, h2⟩
          intro h
          linarith
        cases last with
        | none =>
          simp [detectPairs, crossInterps, gapFilter, hcross, hden, ih]
        | some lastt =>
          by_cases hgap : interpTime reference_pdist p c - lastt < min_gap
          · simp [detectPairs, crossInterps, gapFilter, hcross, hden, hgap, ih]
          · simp [detectPairs, crossInterps, gapFilter, hcross, hden, hgap, ih]
      · simp [detectPairs, crossInterps, gapFilter, hcross, ih]

lemma gapFilter_sublist (min_gap : ℚ) :
    ∀ (ts : List ℚ) (last : Option ℚ), (gapFilter min_gap last ts).Sublist ts := by
  intro ts
  induction ts with
  | nil => intro last; cases last <;> simp [gapFilter]
  | cons t ts ih =>
    intro last
    cases last with
    | none =>
      simpa [gapFilter] using (ih (some t)).cons₂ t
    | some lastt =>
      by_cases hgap : t - lastt < min_gap
      · simp only [gapFilter, if_pos hgap]
        exact (ih (some lastt)).cons t
      · simp only [gapFilter, if_neg hgap]
        exact (ih (some t)).cons₂ t

lemma gapFilter_none_head (min_gap : ℚ) (ts : List ℚ) :
    (gapFilter min_gap none ts).head? = ts.head? := by
  cases ts <;> simp [gapFilter]

lemma detectPairs_eq_noskip (reference_pdist min_gap : ℚ) :
    ∀ (l : List Sample) (last : Option ℚ),
      detectPairs reference_pdist min_gap l last =
        detectPairsNoskip reference_pdist min_gap l last := by
  intro l
  induction l with
  | nil => intro last; simp [detectPairs, detectPairsNoskip]
  | cons p t ih =>
    cases t with
    | nil => intro last; simp [detectPairs, detectPairsNoskip]
    | cons c rest =>
      intro last
      by_cases hcross : p.pdist < reference_pdist ∧ reference_pdist ≤ c.pdist
      · have hden : ¬(c.pdist - p.pdist = 0) := by
          rcases hcross with ⟨h1, h2⟩
          intro h
          linarith
        cases last with
        | none =>
          simp [detectPairs, detectPairsNoskip, hcross, hden, ih]
        | some lastt =>
          by_cases hgap : interpTime reference_pdist p c - lastt < min_gap
          · simp [detectPairs, detectPairsNoskip, hcross, hden, hgap, ih]
          · simp [detectPairs, detectPairsNoskip, hcross, hden, hgap, ih]
      · simp [detectPairs, detectPairsNoskip, hcross, ih]

lemma toleranceScan_sound (lower upper : ℚ) :
    ∀ (l : List Sample) (armed : Bool) (a : Arrival),
      a ∈ toleranceScan lower upper armed l →
      ∃ s, s ∈ l ∧ a.arrival_time = s.tmstmp ∧ a.pdist_at_arrival = s.pdist ∧
        lower ≤ s.pdist ∧ s.pdist ≤ upper := by
  intro l
  induction l with
  | nil => intro armed a ha; simp [toleranceScan] at ha
  | cons s rest ih =>
    intro armed a ha
    simp only [toleranceScan] at ha
    split at ha
    · rcases List.mem_cons.mp ha with h | h
      · rename_i hcond
        exact ⟨s, List.mem_cons_self s rest, by simp [h], by simp [h],
          hcond.2.1, hcond.2.2⟩
      · obtain ⟨s', hs', h1, h2, h3, h4⟩ := ih false a h
        exact ⟨s', List.mem_cons_of_mem s hs', h1, h2, h3, h4⟩
    · split at ha
      · obtain ⟨s', hs', h1, h2, h3, h4⟩ := ih true a ha
        exact ⟨s', List.mem_cons_of_mem s hs', h1, h2, h3, h4⟩
      · obtain ⟨s', hs', h1, h2, h3, h4⟩ := ih armed a ha
        exact ⟨s', List.mem_cons_of_mem s hs', h1, h2, h3, h4⟩

lemma toleranceScan_length (lower upper : ℚ) :
    ∀ (l : List Sample) (armed : Bool),
      (toleranceScan lower upper armed l).length ≤
        l.countP (fun s => decide (s.pdist < lower)) + armed.toNat := by
  intro l
  induction l with
  | nil => intro armed; simp [toleranceScan]
  | cons s rest ih =>
    intro armed
    simp only [toleranceScan]
    split
    · rename_i hcond
      have hnot : ¬(s.pdist < lower) := not_lt.mpr hcond.2.1
      have harmed : armed = true := hcond.1
      have h := ih false
      simp only [List.countP_cons, List.length_cons, hnot, harmed] at h ⊢
      simp at h ⊢
      omega
    · split
      · rename_i hcond hlt
        have h := ih true
        simp only [List.countP_cons, hlt] at h ⊢
        simp at h ⊢
        have hb : armed.toNat ≤ 1 := Bool.toNat_le armed
        omega
      · rename_i hcond hlt
        have h := ih armed
        simp only [List.countP_cons, hlt] at h ⊢
        simp at h ⊢
        omega

lemma sum_replicate_q (n : ℕ) (c : ℚ) : (List.replicate n c).sum = n * c := by
  simp [List.sum_replicate, nsmul_eq_mul]

lemma mean_replicate (n : ℕ) (c : ℚ) (hn : 1 ≤ n) :
    (List.replicate n c).sum / ((List.replicate n c).length : ℚ) = c := by
  have hn' : (n : ℚ) ≠ 0 := Nat.cast_ne_zero.mpr (by omega)
  rw [sum_replicate_q, List.length_replicate, mul_comm, mul_div_assoc,
    div_self hn', mul_one]

lemma sampleVariance_replicate (n : ℕ) (c : ℚ) (hn : 2 ≤ n) :
    sampleVariance (List.replicate n c) = some 0 := by
  have hm := mean_replicate n c (by omega)
  rw [sampleVariance, if_neg (by simp [List.length_replicate]; omega)]
  simp only [hm, List.map_replicate, sub_self]
  norm_num

lemma mem_sortByTmstmp {s : Sample} {l : List Sample} :
    s ∈ sortByTmstmp l ↔ s ∈ l :=
  (List.perm_insertionSort _ l).mem_iff

/-! Claims. -/

/-- C8 (counterexample): the interpolation fraction is NOT always strictly
below 1 for a detected crossing pair with distinct distances: with
prev.pdist = 4000, curr.pdist = 5000 and reference 5000 the crossing
condition holds, the distances differ, and the fraction equals 1. -/
theorem C8_counterexample :
    (Sample.mk 0 4000).pdist < (5000 : ℚ) ∧
    (5000 : ℚ) ≤ (Sample.mk 600 5000).pdist ∧
    (Sample.mk 600 5000).pdist ≠ (Sample.mk 0 4000).pdist ∧
    interpFraction 5000 (Sample.mk 0 4000) (Sample.mk 600 5000) = 1 ∧
    ¬(interpFraction 5000 (Sample.mk 0 4000) (Sample.mk 600 5000) < 1) := by
  norm_num [interpFraction]

/-- C8 (amended): for every detected crossing pair with prev.pdist <
reference <= curr.pdist, the interpolation fraction (reference - prev.pdist)
/ (curr.pdist - prev.pdist) lies in the closed interval [0, 1]; the value 1
is attained exactly when curr.pdist = reference. -/
theorem C8_fraction_bounds (reference_pdist : ℚ) (prev curr : Sample)
    (h1 : prev.pdist < reference_pdist) (h2 : reference_pdist ≤ curr.pdist) :
    0 ≤ interpFraction reference_pdist prev curr ∧
    interpFraction reference_pdist prev curr ≤ 1 := by
  have hd : 0 < curr.pdist - prev.pdist := crossing_denom_pos _ _ _ h1 h2
  constructor
  · exact div_nonneg (by linarith) (le_of_lt hd)
  · rw [interpFraction, div_le_one hd]
    linarith

/-- C8 witness: the bounds at the concrete crossing 4000 to 6000 with
reference 5000. -/
theorem C8_fraction_bounds_witness :
    0 ≤ interpFraction 5000 (Sample.mk 0 4000) (Sample.mk 600 6000) ∧
    interpFraction 5000 (Sample.mk 0 4000) (Sample.mk 600 6000) ≤ 1 :=
  C8_fraction_bounds 5000 (Sample.mk 0 4000) (Sample.mk 600 6000)
    (by norm_num) (by norm_num)

/-- C10: under the crossing condition prev.pdist < reference_pdist <=
curr.pdist the interpolation denominator curr.pdist - prev.pdist is strictly
positive (hence nonzero), and consequently the zero-denominator skip branch
of detect_stop_arrivals is unreachable: the scan equals the same scan with
that branch removed. -/
theorem C10_denominator_positive :
    (∀ (reference_pdist : ℚ) (prev curr : Sample),
      prev.pdist < reference_pdist → reference_pdist ≤ curr.pdist →
      0 < curr.pdist - prev.pdist ∧ curr.pdist - prev.pdist ≠ 0) ∧
    (∀ (reference_pdist min_gap : ℚ) (l : List Sample) (last : Option ℚ),
      detectPairs reference_pdist min_gap l last =
        detectPairsNoskip reference_pdist min_gap l last) := by
  constructor
  · intro reference_pdist prev curr h1 h2
    have hd := crossing_denom_pos reference_pdist prev curr h1 h2
    exact ⟨hd, ne_of_gt hd⟩
  · intro reference_pdist min_gap l last
    exact detectPairs_eq_noskip reference_pdist min_gap l last

/-- C10 witness: the denominator at the concrete crossing 4000 to 6000 with
reference 5000. -/
theorem C10_denominator_positive_witness :
    0 < (Sample.mk 600 6000).pdist - (Sample.mk 0 4000).pdist ∧
    (Sample.mk 600 6000).pdist - (Sample.mk 0 4000).pdist ≠ 0 :=
  C10_denominator_positive.1 5000 (Sample.mk 0 4000) (Sample.mk 600 6000)
    (by norm_num) (by norm_num)

/-- C2 (counterexample): the verdict is NOT driven by the mean of the
absolute per-route differences: with two routes whose downsampled minus
full-resolution pct_under_10 differences are +10 and -10, the mean absolute
difference is 10 (which the claim classifies as MARGINAL, not PASS), yet the
code prints PASS because the signed differences cancel. -/
theorem C2_counterexample :
    validation_verdict [((50 : ℚ), (60 : ℚ)), ((60 : ℚ), (50 : ℚ))] = Verdict.PASS ∧
    mean_abs_delta [((50 : ℚ), (60 : ℚ)), ((60 : ℚ), (50 : ℚ))] = 10 ∧
    ¬(mean_abs_delta [((50 : ℚ), (60 : ℚ)), ((60 : ℚ), (50 : ℚ))] ≤ 5) := by
  refine ⟨?_, ?_, ?_⟩
  · norm_num [validation_verdict, mean_delta, route_deltas]
  · norm_num [mean_abs_delta, route_deltas]
  · norm_num [mean_abs_delta, route_deltas]

/-- C2 (amended): the headline comparison statistic is the absolute value of
the MEAN SIGNED difference (downsampled minus full-resolution pct_under_10)
over all compared routes, and the verdict is PASS iff that value is <= 5
percentage points, MARGINAL iff it is > 5 and <= 10, and FAIL iff it is
> 10. -/
theorem C2_verdict_thresholds (results : List (ℚ × ℚ)) (_hne : results ≠ []) :
    (validation_verdict results = Verdict.PASS ↔ |mean_delta results| ≤ 5) ∧
    (validation_verdict results = Verdict.MARGINAL ↔
      5 < |mean_delta results| ∧ |mean_delta results| ≤ 10) ∧
    (validation_verdict results = Verdict.FAIL ↔ 10 < |mean_delta results|) := by
  rcases le_or_lt |mean_delta results| 5 with h1 | h1
  · have hv : validation_verdict results = Verdict.PASS := by
      rw [validation_verdict, if_pos h1]
    rw [hv]
    exact ⟨⟨fun _ => h1, fun _ => rfl⟩,
      ⟨fun hc => Verdict.noConfusion hc,
       fun hc => absurd h1 (not_le.mpr hc.1)⟩,
      ⟨fun hc => Verdict.noConfusion hc,
       fun hc => absurd h1 (not_le.mpr (by linarith))⟩⟩
  · rcases le_or_lt |mean_delta results| 10 with h2 | h2
    · have hv : validation_verdict results = Verdict.MARGINAL := by
        rw [validation_verdict, if_neg (not_le.mpr h1), if_pos h2]
      rw [hv]
      exact ⟨⟨fun hc => Verdict.noConfusion hc,
        fun hc => absurd hc (not_le.mpr h1)⟩,
        ⟨fun _ => ⟨h1, h2⟩, fun _ => rfl⟩,
        ⟨fun hc => Verdict.noConfusion hc,
         fun hc => absurd h2 (not_le.mpr hc)⟩⟩
    · have hv : validation_verdict results = Verdict.FAIL := by
        rw [validation_verdict, if_neg (not_le.mpr h1), if_neg (not_le.mpr h2)]
      rw [hv]
      exact ⟨⟨fun hc => Verdict.noConfusion hc,
        fun hc => absurd hc (not_le.mpr (by linarith))⟩,
        ⟨fun hc => Verdict.noConfusion hc,
         fun hc => absurd hc.2 (not_le.mpr h2)⟩,
        ⟨fun _ => h2, fun _ => rfl⟩⟩

/-- C2 witness: the thresholds at the concrete two-route comparison with
signed deltas +10 and -10, whose mean signed delta is 0. -/
theorem C2_verdict_thresholds_witness :
    validation_verdict [((50 : ℚ), (60 : ℚ)), ((60 : ℚ), (50 : ℚ))] = Verdict.PASS :=
  ((C2_verdict_thresholds [((50 : ℚ), (60 : ℚ)), ((60 : ℚ), (50 : ℚ))]
      (by simp)).1).mpr (by norm_num [mean_delta, route_deltas])

lemma toleranceScan_first_armed (lower upper : ℚ) :
    ∀ (l₂ : List Sample) (s : Sample) (l₃ : List Sample),
      (∀ x ∈ l₂, ¬(lower ≤ x.pdist ∧ x.pdist ≤ upper)) →
      lower ≤ s.pdist → s.pdist ≤ upper →
      toleranceScan lower upper true (l₂ ++ s :: l₃) =
        Arrival.mk s.tmstmp s.pdist :: toleranceScan lower upper false l₃ := by
  intro l₂
  induction l₂ with
  | nil =>
    intro s l₃ _ h1 h2
    rw [List.nil_append, toleranceScan, if_pos ⟨rfl, h1, h2⟩]
  | cons x l₂ ih =>
    intro s l₃ hx h1 h2
    have hxnot := hx x (List.mem_cons_self _ _)
    rw [List.cons_append, toleranceScan,
      if_neg (fun hcond => hxnot ⟨hcond.2.1, hcond.2.2⟩)]
    have hrec := ih s l₃ (fun y hy => hx y (List.mem_cons_of_mem _ hy)) h1 h2
    split
    · exact hrec
    · exact hrec

lemma toleranceScan_armed_ne_nil (lower upper : ℚ) :
    ∀ l : List Sample, (∃ s ∈ l, lower ≤ s.pdist ∧ s.pdist ≤ upper) →
      toleranceScan lower upper true l ≠ [] := by
  intro l
  induction l with
  | nil =>
    rintro ⟨s, hs, -⟩
    exact absurd hs (List.not_mem_nil s)
  | cons x rest ih =>
    rintro ⟨s, hs, hband⟩
    rw [toleranceScan]
    by_cases hx : lower ≤ x.pdist ∧ x.pdist ≤ upper
    · rw [if_pos ⟨rfl, hx.1, hx.2⟩]
      exact List.cons_ne_nil _ _
    · rw [if_neg (fun hcond => hx ⟨hcond.2.1, hcond.2.2⟩)]
      have hs' : s ∈ rest := by
        rcases List.mem_cons.mp hs with rfl | h
        · exact absurd hband hx
        · exact h
      split
      · exact ih ⟨s, hs', hband⟩
      · exact ih ⟨s, hs', hband⟩

lemma toleranceScan_arm_band_ne_nil (lower upper : ℚ) :
    ∀ (l₁ : List Sample) (armed : Bool) (b : Sample) (l₂ : List Sample),
      b.pdist < lower →
      (∃ s ∈ l₂, lower ≤ s.pdist ∧ s.pdist ≤ upper) →
      toleranceScan lower upper armed (l₁ ++ b :: l₂) ≠ [] := by
  intro l₁
  induction l₁ with
  | nil =>
    intro armed b l₂ hb hband
    rw [List.nil_append, toleranceScan,
      if_neg (fun hcond => absurd hb (not_lt.mpr hcond.2.1)), if_pos hb]
    exact toleranceScan_armed_ne_nil lower upper l₂ hband
  | cons x l₁ ih =>
    intro armed b l₂ hb hband
    rw [List.cons_append, toleranceScan]
    split
    · exact List.cons_ne_nil _ _
    · split
      · exact ih true b l₂ hb hband
      · exact ih armed b l₂ hb hband

lemma toleranceScan_no_rearm_length (lower upper : ℚ) :
    ∀ (l : List Sample) (armed : Bool), (∀ x ∈ l, ¬(x.pdist < lower)) →
      (toleranceScan lower upper armed l).length ≤ 1 := by
  intro l
  induction l with
  | nil => intro armed _; simp [toleranceScan]
  | cons x rest ih =>
    intro armed hx
    have hrest : ∀ y ∈ rest, ¬(y.pdist < lower) := fun y hy =>
      hx y (List.mem_cons_of_mem _ hy)
    rw [toleranceScan]
    split
    · have hc : rest.countP (fun s => decide (s.pdist < lower)) = 0 :=
        List.countP_eq_zero.mpr fun y hy => by simpa using hrest y hy
      have hlen := toleranceScan_length lower upper rest false
      rw [hc] at hlen
      simp only [Bool.toNat_false, Nat.add_zero] at hlen
      simp only [List.length_cons]
      omega
    · split
      · rename_i hlt
        exact absurd hlt (hx x (List.mem_cons_self _ _))
      · exact ih armed hrest

/-- C9 (spec-modelled): the Tolerance-window mode scans the timestamp-sorted
samples per vehicle with lower = reference - tolerance and upper = reference
+ tolerance tracking a below-lower flag; once the flag is set, the FIRST
sample whose distance falls in [lower, upper] IS recorded as one Arrival
Event carrying that sample's own timestamp and distance (no interpolation),
and the flag then resets; at detector level, a sample below lower followed
by an in-band sample guarantees a detection fires; every emitted event is an
in-band sample's own timestamp and distance; with the flag initially false a
vehicle never observed below lower produces no events; and at most one
Arrival Event is produced per approach episode: a sample run with no
below-lower observation yields at most one event, and in general each
detection consumes one arming, so events never exceed below-lower
observations. -/
theorem C9_tolerance_window_mode :
    (∀ (reference tolerance : ℚ) (l : List Sample),
      detect_arrivals_tolerance reference tolerance l =
        toleranceScan (reference - tolerance) (reference + tolerance) false
          (sortByTmstmp l)) ∧
    (∀ (lower upper : ℚ) (l₂ : List Sample) (s : Sample) (l₃ : List Sample),
      (∀ x ∈ l₂, ¬(lower ≤ x.pdist ∧ x.pdist ≤ upper)) →
      lower ≤ s.pdist → s.pdist ≤ upper →
      toleranceScan lower upper true (l₂ ++ s :: l₃) =
        Arrival.mk s.tmstmp s.pdist :: toleranceScan lower upper false l₃) ∧
    (∀ (reference tolerance : ℚ) (l l₁ : List Sample) (b : Sample)
        (l₂ : List Sample),
      sortByTmstmp l = l₁ ++ b :: l₂ → b.pdist < reference - tolerance →
      (∃ s ∈ l₂, reference - tolerance ≤ s.pdist ∧
        s.pdist ≤ reference + tolerance) →
      detect_arrivals_tolerance reference tolerance l ≠ []) ∧
    (∀ (reference tolerance : ℚ) (l : List Sample) (a : Arrival),
      a ∈ detect_arrivals_tolerance reference tolerance l →
      ∃ s, s ∈ l ∧ a.arrival_time = s.tmstmp ∧ a.pdist_at_arrival = s.pdist ∧
        reference - tolerance ≤ s.pdist ∧ s.pdist ≤ reference + tolerance) ∧
    (∀ (reference tolerance : ℚ) (l : List Sample),
      (∀ s ∈ l, ¬(s.pdist < reference - tolerance)) →
      detect_arrivals_tolerance reference tolerance l = []) ∧
    (∀ (lower upper : ℚ) (armed : Bool) (l : List Sample),
      (∀ x ∈ l, ¬(x.pdist < lower)) →
      (toleranceScan lower upper armed l).length ≤ 1) ∧
    (∀ (reference tolerance : ℚ) (l : List Sample),
      (detect_arrivals_tolerance reference tolerance l).length ≤
        l.countP fun s => decide (s.pdist < reference - tolerance)) := by
  refine ⟨?_, ?_, ?_, ?_, ?_, ?_, ?_⟩
  · intro reference tolerance l
    rfl
  · intro lower upper l₂ s l₃ hx h1 h2
    exact toleranceScan_first_armed lower upper l₂ s l₃ hx h1 h2
  · intro reference tolerance l l₁ b l₂ hsort hb hband
    rw [detect_arrivals_tolerance, hsort]
    exact toleranceScan_arm_band_ne_nil _ _ l₁ false b l₂ hb hband
  · intro reference tolerance l a ha
    obtain ⟨s, hs, h1, h2, h3, h4⟩ :=
      toleranceScan_sound (reference - tolerance) (reference + tolerance)
        (sortByTmstmp l) false a ha
    exact ⟨s, mem_sortByTmstmp.mp hs, h1, h2, h3, h4⟩
  · intro reference tolerance l h
    have hc : (sortByTmstmp l).countP
        (fun s => decide (s.pdist < reference - tolerance)) = 0 :=
      List.countP_eq_zero.mpr fun s hs => by
        simpa using h s (mem_sortByTmstmp.mp hs)
    have hl := toleranceScan_length (reference - tolerance)
      (reference + tolerance) (sortByTmstmp l) false
    rw [hc] at hl
    simp only [Bool.toNat_false, Nat.add_zero] at hl
    exact List.eq_nil_of_length_eq_zero (Nat.le_zero.mp hl)
  · intro lower upper armed l h
    exact toleranceScan_no_rearm_length lower upper l armed h
  · intro reference tolerance l
    have hl := toleranceScan_length (reference - tolerance)
      (reference + tolerance) (sortByTmstmp l) false
    have hperm : (sortByTmstmp l).countP
        (fun s => decide (s.pdist < reference - tolerance)) =
        l.countP (fun s => decide (s.pdist < reference - tolerance)) :=
      (List.perm_insertionSort _ l).countP_eq _
    simp only [Bool.toNat_false, Nat.add_zero, hperm] at hl
    exact hl

/-- C9 witness: a concrete detection fires.  With reference 5000 and
tolerance 200 (lower 4800, upper 5200), an armed scan over the samples
(300, 5250) and (600, 4900) skips the out-of-band 5250 and records the first
in-band sample 4900 with its own timestamp 600; and the full detector on
samples (0, 1000), (300, 5250), (600, 4900) — below lower, then in band —
emits a nonempty arrival list. -/
theorem C9_tolerance_window_mode_witness :
    toleranceScan 4800 5200 true [Sample.mk 300 5250, Sample.mk 600 4900] =
      [Arrival.mk 600 4900] ∧
    detect_arrivals_tolerance 5000 200
      [Sample.mk 0 1000, Sample.mk 300 5250, Sample.mk 600 4900] ≠ [] := by
  constructor
  · have h := C9_tolerance_window_mode.2.1 4800 5200 [Sample.mk 300 5250]
      (Sample.mk 600 4900) [] (by norm_num) (by norm_num) (by norm_num)
    simpa [toleranceScan] using h
  · exact C9_tolerance_window_mode.2.2.1 5000 200
      [Sample.mk 0 1000, Sample.mk 300 5250, Sample.mk 600 4900] []
      (Sample.mk 0 1000) [Sample.mk 300 5250, Sample.mk 600 4900]
      (by norm_num [sortByTmstmp, List.insertionSort, List.orderedInsert])
      (by norm_num)
      ⟨Sample.mk 600 4900, by norm_num, by norm_num, by norm_num⟩

/-- C1 (counterexample): it is NOT the case that every consecutive crossing
pair of the sorted samples produces an arrival at its interpolated time: in
the jitter sequence pdist [29800, 30200, 29900, 30100] at 5-minute intervals
(timestamps 28800, 29100, 29400, 29700 seconds) with reference 30000, the
pair (29900, 30100) is a crossing with distinct distances and interpolated
time 29550, yet the only emitted arrival time is 28950 (the second crossing
is suppressed by the 30-minute minimum gap). -/
theorem C1_counterexample :
    sortByTmstmp [Sample.mk 28800 29800, Sample.mk 29100 30200,
        Sample.mk 29400 29900, Sample.mk 29700 30100] =
      [Sample.mk 28800 29800, Sample.mk 29100 30200,
        Sample.mk 29400 29900, Sample.mk 29700 30100] ∧
    ((29900 : ℚ) < 30000 ∧ (30000 : ℚ) ≤ 30100 ∧ (30100 : ℚ) ≠ 29900) ∧
    interpTime 30000 (Sample.mk 29400 29900) (Sample.mk 29700 30100) = 29550 ∧
    (detect_stop_arrivals 30000 30 [Sample.mk 28800 29800, Sample.mk 29100 30200,
        Sample.mk 29400 29900, Sample.mk 29700 30100]).map
      (fun a => a.arrival_time) = [28950] ∧
    ¬((29550 : ℚ) ∈ (detect_stop_arrivals 30000 30
        [Sample.mk 28800 29800, Sample.mk 29100 30200,
          Sample.mk 29400 29900, Sample.mk 29700 30100]).map
        (fun a => a.arrival_time)) := by
  refine ⟨?_, by norm_num, by norm_num [interpTime, interpFraction], ?_, ?_⟩
  · norm_num [sortByTmstmp, List.insertionSort, List.orderedInsert]
  · norm_num [detect_stop_arrivals, detectPairs, sortByTmstmp,
      List.insertionSort, List.orderedInsert, interpTime, interpFraction]
  · norm_num [detect_stop_arrivals, detectPairs, sortByTmstmp,
      List.insertionSort, List.orderedInsert, interpTime, interpFraction]

/-- C1 (amended): in Crossing+Interpolation mode every emitted arrival's time
is the interpolated time prev.tmstmp + ((reference - prev.pdist) /
(curr.pdist - prev.pdist)) * (curr.tmstmp - prev.tmstmp) of some consecutive
crossing pair of the timestamp-sorted samples, and its recorded distance is
the reference (so no pair with prev.pdist >= reference or curr.pdist <
reference produces an arrival); the FIRST crossing pair, when one exists, is
never suppressed: the first emitted arrival time is the first crossing
interpolation time (and there is an arrival iff there is a crossing pair);
suppression can only drop later crossings inside the minimum gap.  Concrete
case: samples 4000 at 08:00 and 6000 at 08:10 with reference 5000 yield one
arrival at exactly 08:05:00 (29100 seconds). -/
theorem C1_crossing_interpolation (reference_pdist min_gap_minutes : ℚ)
    (l : List Sample) :
    (∀ a ∈ detect_stop_arrivals reference_pdist min_gap_minutes l,
      a.arrival_time ∈ crossInterps reference_pdist (sortByTmstmp l) ∧
      a.pdist_at_arrival = reference_pdist) ∧
    ((detect_stop_arrivals reference_pdist min_gap_minutes l).head?.map
        (fun a => a.arrival_time) =
      (crossInterps reference_pdist (sortByTmstmp l)).head?) ∧
    detect_stop_arrivals 5000 30 [Sample.mk 28800 4000, Sample.mk 29400 6000] =
      [Arrival.mk 29100 5000] := by
  refine ⟨?_, ?_, ?_⟩
  · intro a ha
    rw [detect_stop_arrivals, detectPairs_eq_gapFilter] at ha
    obtain ⟨t, ht, rfl⟩ := List.mem_map.mp ha
    exact ⟨(gapFilter_sublist _ _ _).subset ht, rfl⟩
  · rw [detect_stop_arrivals, detectPairs_eq_gapFilter, List.head?_map,
      ← gapFilter_none_head (60 * min_gap_minutes)
        (crossInterps reference_pdist (sortByTmstmp l))]
    cases gapFilter (60 * min_gap_minutes) none
        (crossInterps reference_pdist (sortByTmstmp l)) <;> simp
  · norm_num [detect_stop_arrivals, detectPairs, sortByTmstmp,
      List.insertionSort, List.orderedInsert, interpTime, interpFraction]

/-- C1 witness: the soundness part applied to the concrete interpolation
example (the arrival at 29100 seconds comes from a crossing pair and records
the reference distance). -/
theorem C1_crossing_interpolation_witness :
    (Arrival.mk 29100 5000).arrival_time ∈
      crossInterps 5000 (sortByTmstmp [Sample.mk 28800 4000, Sample.mk 29400 6000]) ∧
    (Arrival.mk 29100 5000).pdist_at_arrival = 5000 :=
  (C1_crossing_interpolation 5000 30
      [Sample.mk 28800 4000, Sample.mk 29400 6000]).1
    (Arrival.mk 29100 5000)
    (by norm_num [detect_stop_arrivals, detectPairs, sortByTmstmp,
      List.insertionSort, List.orderedInsert, interpTime, interpFraction])

/-- C5: in Crossing+Interpolation mode the per-vehicle arrival times are
exactly the crossing interpolation times passed through the minimum-gap
filter: a crossing is recorded iff the vehicle has no previously accepted
arrival or its interpolated time is at least min_gap after the most recently
ACCEPTED arrival, and a suppressed crossing does not reset the gap reference
(the filter keeps the old reference when it skips).  The jitter sequence
pdist [29800, 30200, 29900, 30100] at 5-minute intervals with reference
30000 yields exactly 1 arrival. -/
theorem C5_jitter_suppression :
    (∀ (reference_pdist min_gap_minutes : ℚ) (l : List Sample),
      (detect_stop_arrivals reference_pdist min_gap_minutes l).map
          (fun a => a.arrival_time) =
        gapFilter (60 * min_gap_minutes) none
          (crossInterps reference_pdist (sortByTmstmp l))) ∧
    (∀ (min_gap t : ℚ) (ts : List ℚ),
      gapFilter min_gap none (t :: ts) = t :: gapFilter min_gap (some t) ts) ∧
    (∀ (min_gap last t : ℚ) (ts : List ℚ), t - last < min_gap →
      gapFilter min_gap (some last) (t :: ts) = gapFilter min_gap (some last) ts) ∧
    (∀ (min_gap last t : ℚ) (ts : List ℚ), ¬(t - last < min_gap) →
      gapFilter min_gap (some last) (t :: ts) = t :: gapFilter min_gap (some t) ts) ∧
    (detect_stop_arrivals 30000 30 [Sample.mk 28800 29800, Sample.mk 29100 30200,
        Sample.mk 29400 29900, Sample.mk 29700 30100]).length = 1 := by
  refine ⟨?_, ?_, ?_, ?_, ?_⟩
  · intro reference_pdist min_gap_minutes l
    rw [detect_stop_arrivals, detectPairs_eq_gapFilter, List.map_map]
    have hid : ((fun a : Arrival => a.arrival_time) ∘
        fun t => Arrival.mk t reference_pdist) = id := rfl
    rw [hid, List.map_id]
  · intro min_gap t ts
    rfl
  · intro min_gap last t ts h
    simp [gapFilter, h]
  · intro min_gap last t ts h
    simp [gapFilter, h]
  · norm_num [detect_stop_arrivals, detectPairs, sortByTmstmp,
      List.insertionSort, List.orderedInsert, interpTime, interpFraction]

/-- C5 witness: the suppression equation at the concrete jitter values (the
second interpolated time 29550 is 600 seconds after the accepted 28950,
inside the 1800-second gap, so it is dropped and the reference stays
28950). -/
theorem C5_jitter_suppression_witness :
    gapFilter 1800 (some 28950) [29550] = gapFilter 1800 (some 28950) [] :=
  C5_jitter_suppression.2.2.1 1800 28950 29550 [] (by norm_num)

/-- C3: for every non-empty headway batch the Metrics Reducer returns
pct_under_10 = 100 * |h <= 10| / n and pct_under_12 = 100 * |h <= 12| / n
(inclusive), pct_over_15 and pct_over_20 = 100 * |h > threshold| / n
(strict), and bunching_rate = 100 * |h < 2| / n (strict); in particular a
batch containing exactly one value equal to 2.0 and no value below 2.0
yields bunching_rate = 0. -/
theorem C3_metric_boundaries :
    (∀ hs : List ℚ, hs ≠ [] →
      (compute_headway_metrics hs).pct_under_10 =
        100 * (hs.countP fun h => decide (h ≤ 10)) / hs.length ∧
      (compute_headway_metrics hs).pct_under_12 =
        100 * (hs.countP fun h => decide (h ≤ 12)) / hs.length ∧
      (compute_headway_metrics hs).pct_over_15 =
        100 * (hs.countP fun h => decide (15 < h)) / hs.length ∧
      (compute_headway_metrics hs).pct_over_20 =
        100 * (hs.countP fun h => decide (20 < h)) / hs.length ∧
      (compute_headway_metrics hs).bunching_rate =
        100 * (hs.countP fun h => decide (h < 2)) / hs.length) ∧
    (∀ hs : List ℚ, hs ≠ [] → hs.count 2 = 1 → (∀ h ∈ hs, ¬(h < 2)) →
      (compute_headway_metrics hs).bunching_rate = 0) := by
  constructor
  · intro hs _
    refine ⟨?_, ?_, ?_, ?_, ?_⟩ <;>
      · simp only [compute_headway_metrics]
        ring
  · intro hs _ _ h
    have hc : hs.countP (fun h => decide (h < 2)) = 0 :=
      List.countP_eq_zero.mpr fun a ha => by simpa using h a ha
    simp only [compute_headway_metrics, hc]
    norm_num

/-- C3 witness: the batch [2] (exactly one value equal to 2.0, none below)
has bunching_rate 0. -/
theorem C3_metric_boundaries_witness :
    (compute_headway_metrics [(2 : ℚ)]).bunching_rate = 0 :=
  C3_metric_boundaries.2 [(2 : ℚ)] (by simp) (by simp) (by norm_num)

/-- C4 (counterexample): cv_headway is NOT 0 for every constant positive
batch: for the singleton constant batch [10] the sample standard deviation
(n - 1 denominator) is NaN, so cv_headway is NaN (none), not 0. -/
theorem C4_counterexample :
    [(10 : ℚ)] = List.replicate 1 (10 : ℚ) ∧ (0 : ℚ) < 10 ∧
    (compute_headway_metrics [(10 : ℚ)]).cv_headway = none ∧
    (compute_headway_metrics [(10 : ℚ)]).cv_headway ≠ some 0 := by
  refine ⟨by simp, by norm_num, ?_, ?_⟩
  · simp [compute_headway_metrics, sampleVariance]
  · simp [compute_headway_metrics, sampleVariance]

/-- C4 (amended): for every headway batch with n >= 1 and positive sum,
excess_wait_time equals (sum of h squared) / (2 * sum of h) minus mean / 2;
consequently every constant positive batch has excess_wait_time 0, and every
constant positive batch of length at least 2 has cv_headway 0 (for a
singleton batch cv_headway is NaN because the sample standard deviation is
undefined). -/
theorem C4_excess_wait_time :
    (∀ hs : List ℚ, hs ≠ [] → 0 < hs.sum →
      (compute_headway_metrics hs).excess_wait_time =
        (hs.map fun h => h ^ 2).sum / (2 * hs.sum) - hs.sum / hs.length / 2) ∧
    (∀ (n : ℕ) (c : ℚ), 1 ≤ n → 0 < c →
      (compute_headway_metrics (List.replicate n c)).excess_wait_time = 0) ∧
    (∀ (n : ℕ) (c : ℚ), 2 ≤ n → 0 < c →
      (compute_headway_metrics (List.replicate n c)).cv_headway = some 0) := by
  refine ⟨?_, ?_, ?_⟩
  · intro hs _ _
    simp only [compute_headway_metrics]
  · intro n c hn hc
    have hn0 : (n : ℚ) ≠ 0 := Nat.cast_ne_zero.mpr (by omega)
    have hc0 : c ≠ 0 := ne_of_gt hc
    simp only [compute_headway_metrics, List.map_replicate, sum_replicate_q,
      List.length_replicate]
    field_simp
    ring
  · intro n c hn hc
    have hm := mean_replicate n c (by omega)
    have hv := sampleVariance_replicate n c hn
    simp only [compute_headway_metrics, hv, hm, Option.map_some]
    rw [if_pos (ne_of_gt hc)]
    simp [Real.sqrt_zero]

/-- C4 witness: the constant batch of two headways of 10 minutes has
excess_wait_time 0 and cv_headway 0, and its excess_wait_time satisfies the
EWT formula. -/
theorem C4_excess_wait_time_witness :
    (compute_headway_metrics (List.replicate 2 (10 : ℚ))).excess_wait_time = 0 ∧
    (compute_headway_metrics (List.replicate 2 (10 : ℚ))).cv_headway = some 0 ∧
    (compute_headway_metrics [(10 : ℚ), 10]).excess_wait_time =
      (([(10 : ℚ), 10]).map fun h => h ^ 2).sum / (2 * ([(10 : ℚ), 10]).sum) -
        ([(10 : ℚ), 10]).sum / (([(10 : ℚ), 10]).length : ℚ) / 2 :=
  ⟨C4_excess_wait_time.2.1 2 10 (by norm_num) (by norm_num),
   C4_excess_wait_time.2.2 2 10 (by norm_num) (by norm_num),
   C4_excess_wait_time.1 [(10 : ℚ), 10] (by simp) (by norm_num)⟩

lemma compute_headways_perm (l1 l2 : List ℚ) (hp : l1.Perm l2) :
    compute_headways_from_arrivals l1 = compute_headways_from_arrivals l2 := by
  have hlen := hp.length_eq
  by_cases h : l1.length ≤ 1
  · rw [compute_headways_from_arrivals, compute_headways_from_arrivals,
      if_pos h, if_pos (by omega)]
  · have hsort : List.insertionSort (· ≤ ·) l1 = List.insertionSort (· ≤ ·) l2 :=
      List.eq_of_perm_of_sorted
        (((List.perm_insertionSort _ l1).trans hp).trans
          (List.perm_insertionSort _ l2).symm)
        (List.sorted_insertionSort _ l1) (List.sorted_insertionSort _ l2)
    rw [compute_headways_from_arrivals, compute_headways_from_arrivals,
      if_neg h, if_neg (by omega), hsort]

/-- C6: the Headway Builder sorts the arrival times ascending, so every
permutation of the same events yields identical output; when the input has
length at least 2 the output length is exactly input length minus 1; input
length at most 1 gives the empty sequence (no error); entry i of the output
is sorted[i+1] - sorted[i] converted from seconds to minutes; and arrivals
at 08:00, 08:10, 08:25 (seconds 28800, 29400, 30300) in any order give
exactly [10.0, 15.0]. -/
theorem C6_headway_builder :
    (∀ l1 l2 : List ℚ, l1.Perm l2 →
      compute_headways_from_arrivals l1 = compute_headways_from_arrivals l2) ∧
    (∀ l : List ℚ, 2 ≤ l.length →
      (compute_headways_from_arrivals l).length = l.length - 1) ∧
    (∀ l : List ℚ, l.length ≤ 1 → compute_headways_from_arrivals l = []) ∧
    (∀ (l : List ℚ) (i : ℕ), i < (compute_headways_from_arrivals l).length →
      (compute_headways_from_arrivals l).getD i 0 =
        ((List.insertionSort (· ≤ ·) l).getD (i + 1) 0 -
          (List.insertionSort (· ≤ ·) l).getD i 0) / 60) ∧
    (∀ l : List ℚ, l.Perm [28800, 29400, 30300] →
      compute_headways_from_arrivals l = [10, 15]) := by
  refine ⟨compute_headways_perm, ?_, ?_, ?_, ?_⟩
  · intro l h2
    rw [compute_headways_from_arrivals, if_neg (by omega)]
    simp [List.length_zip, List.length_tail, List.length_insertionSort]
  · intro l h1
    rw [compute_headways_from_arrivals, if_pos h1]
  · intro l i hi
    by_cases hl : l.length ≤ 1
    · rw [compute_headways_from_arrivals, if_pos hl] at hi
      simp at hi
    · rw [compute_headways_from_arrivals, if_neg hl] at hi ⊢
      have hi2 : i < min (List.insertionSort (· ≤ ·) l).length
          (List.insertionSort (· ≤ ·) l).tail.length := by
        simpa [List.length_zip] using hi
      have hzi : i < (List.insertionSort (· ≤ ·) l).tail.length :=
        lt_of_lt_of_le hi2 (min_le_right _ _)
      have hsi1 : i + 1 < (List.insertionSort (· ≤ ·) l).length := by
        rw [List.length_tail] at hzi
        omega
      have hsi : i < (List.insertionSort (· ≤ ·) l).length := by omega
      have him : i < (((List.insertionSort (· ≤ ·) l).zip
          (List.insertionSort (· ≤ ·) l).tail).map fun p => (p.2 - p.1) / 60).length := by
        simpa using hi
      show (((List.insertionSort (· ≤ ·) l).zip
          (List.insertionSort (· ≤ ·) l).tail).map fun p => (p.2 - p.1) / 60).getD i 0 = _
      rw [List.getD_eq_getElem _ _ him, List.getElem_map, List.getElem_zip,
        List.getElem_tail, List.getD_eq_getElem _ _ hsi1, List.getD_eq_getElem _ _ hsi]
  · intro l hp
    rw [compute_headways_perm l [28800, 29400, 30300] hp]
    norm_num [compute_headways_from_arrivals, List.insertionSort, List.orderedInsert]

/-- C6 witness: the three arrivals in the scrambled order 08:10, 08:00,
08:25 give exactly [10, 15]. -/
theorem C6_headway_builder_witness :
    compute_headways_from_arrivals [29400, 28800, 30300] = [10, 15] :=
  C6_headway_builder.2.2.2.2 [29400, 28800, 30300] (by decide)

lemma is_in_service_window_spec (t : LocalTime) :
    (is_in_service_window t.hour (decide (t.dayofweek.val < 5)) = true) ↔
      ((t.dayofweek.val < 5 ∧ 6 ≤ t.hour ∧ t.hour < 21) ∨
        (¬t.dayofweek.val < 5 ∧ 9 ≤ t.hour ∧ t.hour < 21)) := by
  by_cases hw : t.dayofweek.val < 5 <;>
    simp [is_in_service_window, SERVICE_WINDOW_WEEKDAY, SERVICE_WINDOW_WEEKEND, hw]

/-- C7: the Service-Window Filter retains an arrival iff its timestamp falls
on a weekday (dayofweek 0-4) with 6 <= hour < 21, or on a weekend day with
9 <= hour < 21; retained rows are returned unmodified (the output is a
sublist of the input, rows of arbitrary column shape); a Tuesday 07:00
arrival is retained, a Saturday 07:00 arrival is rejected, a Saturday 09:00
arrival is retained, and a weekday 21:00 arrival is rejected. -/
theorem C7_service_window_filter :
    (∀ (α : Type) (arrival_time : α → LocalTime) (arrivals : List α) (r : α),
      r ∈ filter_arrivals_to_service_window arrival_time arrivals ↔
        r ∈ arrivals ∧
          (((arrival_time r).dayofweek.val < 5 ∧
              6 ≤ (arrival_time r).hour ∧ (arrival_time r).hour < 21) ∨
            (¬(arrival_time r).dayofweek.val < 5 ∧
              9 ≤ (arrival_time r).hour ∧ (arrival_time r).hour < 21))) ∧
    (∀ (α : Type) (arrival_time : α → LocalTime) (arrivals : List α),
      (filter_arrivals_to_service_window arrival_time arrivals).Sublist arrivals) ∧
    filter_arrivals_to_service_window id [LocalTime.mk 1 7] = [LocalTime.mk 1 7] ∧
    filter_arrivals_to_service_window id [LocalTime.mk 5 7] = [] ∧
    filter_arrivals_to_service_window id [LocalTime.mk 5 9] = [LocalTime.mk 5 9] ∧
    filter_arrivals_to_service_window id [LocalTime.mk 1 21] = [] := by
  refine ⟨?_, ?_, by decide, by decide, by decide, by decide⟩
  · intro α arrival_time arrivals r
    simp only [filter_arrivals_to_service_window, List.mem_filter,
      is_in_service_window_spec]
  · intro α arrival_time arrivals
    exact List.filter_sublist _

end BusCheck
